import Mathlib

/-!
Verification of the concurrent ping-sweep engine in `PORTscanner.py`.

The Python source is shallowly embedded below:
* IPv4 addresses are represented by their numeric value (a `Nat < 2^32`);
  `str(ip)` / `ipaddress.IPv4Address` conversions are bijective, so sorting
  by `ipaddress.IPv4Address(x[0])` is sorting by this numeric value.
* `ipaddress.ip_network(subnet, strict=False)` (an external library call) is
  embedded as `parseIPv4Network`: a dotted-quad/prefix parser that masks away
  host bits (`strict=False`), per the CPython `ipaddress` semantics.
* `network.hosts()` is embedded as `hostsOf`, with CPython's three cases:
  prefix 32 gives the single address, prefix 31 gives both endpoints, and
  any wider prefix gives the addresses strictly between network and
  broadcast.
* `subprocess.run` of the ping command is embedded as an environment value
  `PingEnv` (either the command completed with some return code, or the
  invocation raised an exception); `ping` maps that environment to the
  `(host, alive)` pair the Python function returns.
* The `ThreadPoolExecutor` fan-out/fan-in is embedded two ways: as a result
  list indexed by an arbitrary arrival permutation of the submitted host
  list (`sweepRun`), and as a small-step worker-pool transition system
  (`SchedStep`) for the concurrency-ceiling invariant.
-/

namespace PortScanner

/-- `MAX_THREADS = 200` (PORTscanner.py line 26). -/
def MAX_THREADS : Nat := 200

/-- `PING_TIMEOUT_MS = 800` (PORTscanner.py line 27). -/
def PING_TIMEOUT_MS : Nat := 800

/-! ## Address range parsing (`ipaddress.ip_network(subnet, strict=False)`) -/

/-- An IPv4 network: the (masked) network address and the prefix length.
Mirrors the `ipaddress.IPv4Network` value that `sweep_network` builds. -/
structure IPv4Net where
  addr : Nat
  prefixLen : Nat
  deriving Repr, DecidableEq

/-- Split a character list at every occurrence of the separator `c`
(the semantics of Python's `str.split` with a one-character separator,
which is how `ipaddress` takes a specification apart). -/
def splitChar (c : Char) : List Char → List (List Char)
  | [] => [[]]
  | x :: xs =>
    match splitChar c xs, decide (x = c) with
    | r, true => [] :: r
    | [], false => [[x]]
    | y :: ys, false => (x :: y) :: ys

/-- Decimal value of a digit list, `none` on a non-digit. -/
def digitsToNat? : List Char → Nat → Option Nat
  | [], acc => some acc
  | c :: cs, acc =>
    if c.isDigit then digitsToNat? cs (acc * 10 + (c.toNat - 48))
    else none

/-- Parse one dotted-quad octet the way CPython's `ipaddress` does: one to
three ASCII digits, no leading zero, value at most 255. -/
def parseOctet (s : List Char) : Except String Nat :=
  if s.length = 0 then .error "Empty octet not permitted"
  else if s.length > 3 then .error "At most 3 characters permitted"
  else if s.length > 1 ∧ s.headI = '0' then .error "Leading zeros not permitted"
  else
    match digitsToNat? s 0 with
    | none => .error "Only decimal digits permitted"
    | some n => if n > 255 then .error "Octet must be in range 0-255" else .ok n

/-- Parse a dotted-quad IPv4 address into its numeric value. -/
def parseIPv4 (s : List Char) : Except String Nat :=
  match splitChar '.' s with
  | [a, b, c, d] => do
      let oa ← parseOctet a
      let ob ← parseOctet b
      let oc ← parseOctet c
      let od ← parseOctet d
      pure (((oa * 256 + ob) * 256 + oc) * 256 + od)
  | _ => .error "Expected 4 octets"

/-- Parse a prefix length: decimal digits, value at most 32. -/
def parsePrefix (s : List Char) : Except String Nat :=
  if s.length = 0 then .error "Empty prefix not permitted"
  else
    match digitsToNat? s 0 with
    | none => .error "Prefix must be decimal digits"
    | some n => if n > 32 then .error "Prefix must be in range 0-32" else .ok n

/-- Clear the host bits of `base` for prefix length `p` (what `strict=False`
does to an address with host bits set). -/
def maskNet (base p : Nat) : Nat :=
  base / 2 ^ (32 - p) * 2 ^ (32 - p)

/-- Embedding of `ipaddress.ip_network(subnet, strict=False)` restricted to
the textual forms the program consumes: `a.b.c.d` (prefix defaults to 32) or
`a.b.c.d/p`.  Malformed input yields the `ValueError` branch, which the
source meets with `console.print(...)`` and `sys.exit(1)` before any probing. -/
def parseIPv4Network (s : String) : Except String IPv4Net :=
  match splitChar '/' s.data with
  | [a] => (parseIPv4 a).map fun n => ⟨n, 32⟩
  | [a, p] => do
      let base ← parseIPv4 a
      let pr ← parsePrefix p
      pure ⟨maskNet base pr, pr⟩
  | _ => .error "Only one slash permitted"

/-- The broadcast address of a network. -/
def broadcastOf (net : IPv4Net) : Nat :=
  net.addr + 2 ^ (32 - net.prefixLen) - 1

/-- Embedding of `network.hosts()` (CPython `ipaddress`): for a /32 the single
address, for a /31 both endpoints, otherwise every address strictly between
the network address and the broadcast address. -/
def hostsOf (net : IPv4Net) : List Nat :=
  if net.prefixLen = 32 then [net.addr]
  else if net.prefixLen = 31 then [net.addr, net.addr + 1]
  else List.range' (net.addr + 1) (2 ^ (32 - net.prefixLen) - 2)

/-! ## The liveness probe (`build_ping_cmd`, `ping`) -/

/-- Embedding of `build_ping_cmd` (PORTscanner.py lines 43-47); `os` is the
module-level `OS = platform.system().lower()`. -/
def build_ping_cmd (os : String) (host : String) : List String :=
  if os = "windows" then
    ["ping", "-n", "1", "-w", toString PING_TIMEOUT_MS, host]
  else
    ["ping", "-c", "1", "-W", toString (PING_TIMEOUT_MS / 1000), host]

/-- What the outside world did when `ping` invoked `subprocess.run`: either
the command ran to completion with some return code, or the invocation
raised an exception (timeout plumbing, permission denial, `OSError`, ...). -/
inductive PingEnv where
  | completed (returncode : Int)
  | raised
  deriving Repr, DecidableEq

/-- Embedding of `ping` (PORTscanner.py lines 50-62): the `try` block
computes `alive = (returncode == 0)`; any exception is absorbed by the bare
`except Exception` and yields `alive = False`; `(host, alive)` is returned. -/
def ping (env : PingEnv) (host : Nat) : Nat × Bool :=
  match env with
  | .completed rc => (host, rc == 0)
  | .raised => (host, false)

/-! ## The sweep (`sweep_network`, lines 65-102)

`sweep_network` submits `ping` for every enumerated host, then collects
completions with `as_completed`, appending `future.result()` to `results`
in whatever order the probes finish.  The arrival order is therefore some
permutation of the submitted host list, chosen by the runtime; it is
embedded as a schedule function `sched`, constrained to a permutation in
the theorems.  A host's probe outcome is `(h, alive h)` where `alive`
abstracts the composite of `ping` with that host's environment. -/

/-- The `results` list built by the `as_completed` loop: one
`future.result()` per arrival, in arrival order. -/
def sweepRun (alive : Nat → Bool) (arrival : List Nat) : List (Nat × Bool) :=
  arrival.map fun h => (h, alive h)

/-- Embedding of `sweep_network` (lines 65-102) for a run that is not
interrupted: parse the subnet (the `ValueError` branch prints and calls
`sys.exit(1)`, embedded as `Except.error`), enumerate `hosts`, probe each
exactly once, and return the `results` list in arrival order. -/
def sweep_network (alive : Nat → Bool) (sched : List Nat → List Nat)
    (subnet : String) : Except String (List (Nat × Bool)) :=
  match parseIPv4Network subnet with
  | .error e => .error e
  | .ok network => .ok (sweepRun alive (sched (hostsOf network)))

/-- The hosts for which `sweep_network` submits a `ping` probe: none when
parsing fails (the function exits first), otherwise every enumerated host. -/
def probedHosts (sched : List Nat → List Nat) (subnet : String) : List Nat :=
  match parseIPv4Network subnet with
  | .error _ => []
  | .ok network => sched (hostsOf network)

/-- Embedding of the body of `update_table` (lines 89-93): the table rows are
rebuilt from `sorted(results, key=lambda x: ipaddress.IPv4Address(x[0]))`,
i.e. the recorded outcomes stably sorted ascending by numeric address. -/
def update_table (results : List (Nat × Bool)) : List (Nat × Bool) :=
  results.insertionSort fun a b => a.1 ≤ b.1

/-! ## Cancellation (KeyboardInterrupt during the collection loop)

`sweep_network` has no `try`/`except` around its collection loop: an
interrupt delivered while waiting on `as_completed` unwinds through the
`with` blocks and propagates out of the function, so the local `results`
list is discarded and the caller receives nothing.  `interrupt = some k`
models an interrupt arriving after `k` completions have been processed;
`none` models an undisturbed run. -/

/-- Outcome of the collection loop: either the function returns `results`,
or the interrupt propagates and no value is returned. -/
inductive SweepOutcome where
  | completed (results : List (Nat × Bool))
  | interrupted
  deriving Repr, DecidableEq

/-- The `as_completed` collection loop of `sweep_network` under a possible
interrupt: each iteration appends one `(host, alive)` outcome to the
accumulated `results`; an interrupt raises out of the loop, discarding the
accumulator. -/
def collectLoop (alive : Nat → Bool) :
    List Nat → Option Nat → List (Nat × Bool) → SweepOutcome
  | [], _, acc => .completed acc
  | h :: rest, interrupt, acc =>
    match interrupt with
    | some 0 => .interrupted
    | some (k + 1) => collectLoop alive rest (some k) (acc ++ [(h, alive h)])
    | none => collectLoop alive rest none (acc ++ [(h, alive h)])

/-- Run the collection loop of `sweep_network` on an arrival order, with an
optional interrupt after `k` completions. -/
def runSweep (alive : Nat → Bool) (arrival : List Nat)
    (interrupt : Option Nat) : SweepOutcome :=
  collectLoop alive arrival interrupt []

/-- What the caller of `sweep_network` receives: the results list for a run
that returned, nothing for a run the interrupt propagated out of. -/
def resultsReturned : SweepOutcome → Option (List (Nat × Bool))
  | .completed rs => some rs
  | .interrupted => none

/-! ## The bounded scheduler (`ThreadPoolExecutor(max_workers=MAX_THREADS)`)

The pool of line 96 is embedded as a transition system: a submitted task is
`pending` until one of the `MAX_THREADS` worker threads picks it up
(possible only while fewer than `max_workers` tasks are `running`), runs
`ping` on it, and moves it to `done`. -/

/-- Scheduler state: tasks not yet started, tasks currently executing on a
worker thread, and completed outcomes. -/
structure SchedState where
  pending : List Nat
  running : List Nat
  done : List (Nat × Bool)
  deriving Repr, DecidableEq

/-- One transition of the `ThreadPoolExecutor`: a worker may start the next
pending task only while fewer than `maxWorkers` tasks are running, and a
running task may finish, recording its `ping` outcome. -/
inductive SchedStep (alive : Nat → Bool) (maxWorkers : Nat) :
    SchedState → SchedState → Prop
  | start {h : Nat} {rest running : List Nat} {done : List (Nat × Bool)} :
      running.length < maxWorkers →
      SchedStep alive maxWorkers ⟨h :: rest, running, done⟩
        ⟨rest, h :: running, done⟩
  | finish {pending l1 l2 : List Nat} {h : Nat} {done : List (Nat × Bool)} :
      SchedStep alive maxWorkers ⟨pending, l1 ++ h :: l2, done⟩
        ⟨pending, l1 ++ l2, (h, alive h) :: done⟩

/-- Initial scheduler state: every enumerated host submitted, nothing
running, nothing done. -/
def initState (hosts : List Nat) : SchedState :=
  ⟨hosts, [], []⟩

/-- States the scheduler can reach during a sweep over `hosts`. -/
def Reachable (alive : Nat → Bool) (maxWorkers : Nat) (hosts : List Nat)
    (s : SchedState) : Prop :=
  Relation.ReflTransGen (SchedStep alive maxWorkers) (initState hosts) s

/-- The key of `sorted(results, key=lambda x: ipaddress.IPv4Address(x[0]))`
compares outcomes by numeric address; the comparison is total. -/
instance : IsTotal (Nat × Bool) fun a b => a.1 ≤ b.1 :=
  ⟨fun a b => Nat.le_total a.1 b.1⟩

/-- The address-key comparison is transitive. -/
instance : IsTrans (Nat × Bool) fun a b => a.1 ≤ b.1 :=
  ⟨fun _ _ _ => Nat.le_trans⟩

/-! ## General lemmas about the embedding -/

/-- An undisturbed collection loop completes with every arrival's outcome
appended behind the accumulator. -/
theorem collectLoop_none (alive : Nat → Bool) (arrival : List Nat)
    (acc : List (Nat × Bool)) :
    collectLoop alive arrival none acc =
      .completed (acc ++ sweepRun alive arrival) := by
  induction arrival generalizing acc with
  | nil => simp [collectLoop, sweepRun]
  | cons h rest ih => simp [collectLoop, sweepRun, ih]

/-- An interrupt delivered before the loop has consumed every completion
propagates: the loop never returns a value. -/
theorem collectLoop_interrupt (alive : Nat → Bool) (arrival : List Nat)
    (k : Nat) (acc : List (Nat × Bool)) (hk : k < arrival.length) :
    collectLoop alive arrival (some k) acc = .interrupted := by
  induction arrival generalizing k acc with
  | nil => simp at hk
  | cons h rest ih =>
    cases k with
    | zero => rfl
    | succ k => exact ih k _ (by simpa using hk)

/-- The enumerated host list never repeats an address. -/
theorem hostsOf_nodup (net : IPv4Net) : (hostsOf net).Nodup := by
  unfold hostsOf
  split
  · simp
  · split
    · simp
    · exact List.nodup_range' _ _

/-! ## Claims -/

/-- C1, counterexample: the list `sweep_network` hands back is in probe
arrival order, not sorted.  For `192.168.1.0/30` with arrival order
`[.2, .1]` (a legitimate completion order, a permutation of the enumerated
hosts), the returned list is `[(.2, _), (.1, _)]`, which is not ascending
by numeric address. -/
theorem C1_counterexample :
    ([3232235778, 3232235777] : List Nat).Perm (hostsOf ⟨3232235776, 30⟩) ∧
    sweep_network (fun _ => false) (fun _ => [3232235778, 3232235777])
      "192.168.1.0/30" =
      Except.ok [(3232235778, false), (3232235777, false)] ∧
    ¬ List.Sorted (fun a b : Nat × Bool => a.1 ≤ b.1)
        [(3232235778, false), (3232235777, false)] :=
  ⟨by decide, by rfl, by decide⟩

/-- C1 (amended): what is sorted ascending by numeric address value,
regardless of arrival order, is the live table rebuilt by `update_table`
after each completion — a permutation of the recorded outcomes; the list
returned by `sweep_network` itself stays in arrival order. -/
theorem C1_amended_thm (alive : Nat → Bool) (sched : List Nat → List Nat)
    (net : IPv4Net) :
    List.Sorted (fun a b : Nat × Bool => a.1 ≤ b.1)
      (update_table (sweepRun alive (sched (hostsOf net)))) ∧
    (update_table (sweepRun alive (sched (hostsOf net)))).Perm
      (sweepRun alive (sched (hostsOf net))) :=
  ⟨List.sorted_insertionSort _ _, List.perm_insertionSort _ _⟩

/-- C2: after a completed sweep over any arrival permutation of the
enumerated hosts, the result list has exactly the enumerated length, each
enumerated address appears in exactly one outcome, and no other address
appears. -/
theorem C2_thm (alive : Nat → Bool) (net : IPv4Net)
    (arrival : List Nat) (hperm : arrival.Perm (hostsOf net)) :
    (sweepRun alive arrival).length = (hostsOf net).length ∧
    (∀ h ∈ hostsOf net,
      (sweepRun alive arrival).countP (fun p => p.1 == h) = 1) ∧
    (∀ p ∈ sweepRun alive arrival, p.1 ∈ hostsOf net) := by
  refine ⟨by simpa [sweepRun] using hperm.length_eq, ?_, ?_⟩
  · intro h hh
    have hcount : arrival.count h = 1 := by
      rw [hperm.count_eq]
      exact List.count_eq_one_of_mem (hostsOf_nodup net) hh
    calc (sweepRun alive arrival).countP (fun p => p.1 == h)
        = arrival.countP
            ((fun p : Nat × Bool => p.1 == h) ∘ fun x => (x, alive x)) :=
          List.countP_map _ _ _
      _ = arrival.count h := rfl
      _ = 1 := hcount
  · intro p hp
    simp only [sweepRun, List.mem_map] at hp
    obtain ⟨x, hx, rfl⟩ := hp
    exact hperm.mem_iff.mp hx

/-- C2, witness: a `/30` sweep with reversed arrival order still has one
outcome per enumerated host. -/
theorem C2_witness :
    ([3232235778, 3232235777] : List Nat).Perm (hostsOf ⟨3232235776, 30⟩) ∧
    (sweepRun (fun _ => false) [3232235778, 3232235777]).length =
      (hostsOf ⟨3232235776, 30⟩).length :=
  ⟨by decide,
   (C2_thm (fun _ => false) ⟨3232235776, 30⟩ [3232235778, 3232235777]
     (by decide)).1⟩

/-- C3, counterexample: `network.hosts()` on a /31 returns both endpoint
addresses (two of them, per RFC 3021 semantics in CPython ≥ 3.8), so the
enumeration of `192.168.1.0/31` has length 2, not 1. -/
theorem C3_counterexample :
    (parseIPv4Network "192.168.1.0/31").map (fun n => (hostsOf n).length) =
      Except.ok 2 ∧ (2 : Nat) ≠ 1 :=
  ⟨rfl, by decide⟩

/-- C3 (amended): no network/broadcast exclusion is applied to /31 and /32
ranges; a /32 enumerates exactly 1 address and a /31 exactly 2 (both
endpoints, network and broadcast included). -/
theorem C3_amended_thm (net : IPv4Net)
    (h : net.prefixLen = 31 ∨ net.prefixLen = 32) :
    ((hostsOf net).length = if net.prefixLen = 32 then 1 else 2) ∧
    net.addr ∈ hostsOf net ∧ broadcastOf net ∈ hostsOf net := by
  rcases h with h | h <;> simp [hostsOf, broadcastOf, h]

/-- C3, witness: the amended count and non-exclusion at the concrete /31
network `192.168.1.0/31`. -/
theorem C3_witness :
    ((hostsOf ⟨3232235776, 31⟩).length =
      if (⟨3232235776, 31⟩ : IPv4Net).prefixLen = 32 then 1 else 2) ∧
    (⟨3232235776, 31⟩ : IPv4Net).addr ∈ hostsOf ⟨3232235776, 31⟩ ∧
    broadcastOf ⟨3232235776, 31⟩ ∈ hostsOf ⟨3232235776, 31⟩ :=
  C3_amended_thm ⟨3232235776, 31⟩ (Or.inl rfl)

/-- C4: for any prefix length at most 30, the enumeration has exactly
`2^(32-p) - 2` addresses (at least one), excludes the network and the
broadcast address, and contains precisely the addresses strictly between
them. -/
theorem C4_thm (net : IPv4Net) (hp : net.prefixLen ≤ 30) :
    (hostsOf net).length = 2 ^ (32 - net.prefixLen) - 2 ∧
    1 ≤ (hostsOf net).length ∧
    net.addr ∉ hostsOf net ∧
    broadcastOf net ∉ hostsOf net ∧
    ∀ x, x ∈ hostsOf net ↔ net.addr < x ∧ x < broadcastOf net := by
  have h4 : 4 ≤ 2 ^ (32 - net.prefixLen) := by
    calc (4 : Nat) = 2 ^ 2 := by norm_num
      _ ≤ 2 ^ (32 - net.prefixLen) :=
          Nat.pow_le_pow_right (by norm_num) (by omega)
  have h32 : ¬ net.prefixLen = 32 := by omega
  have h31 : ¬ net.prefixLen = 31 := by omega
  have hh : hostsOf net =
      List.range' (net.addr + 1) (2 ^ (32 - net.prefixLen) - 2) := by
    simp [hostsOf, h32, h31]
  rw [hh, broadcastOf]
  generalize 2 ^ (32 - net.prefixLen) = k at h4 ⊢
  refine ⟨by simp, by simp; omega, ?_, ?_, ?_⟩
  · rw [List.mem_range'_1]; omega
  · rw [List.mem_range'_1]; omega
  · intro x; rw [List.mem_range'_1]; omega

/-- C4, witness: `192.168.1.0/30` enumerates `2^2 - 2 = 2` usable hosts. -/
theorem C4_witness :
    (hostsOf ⟨3232235776, 30⟩).length =
      2 ^ (32 - (⟨3232235776, 30⟩ : IPv4Net).prefixLen) - 2 :=
  (C4_thm ⟨3232235776, 30⟩ (by norm_num)).1

/-- C5: `ping` is a total function (the bare `except Exception` absorbs
every error of the underlying check), and every failure mode — the
invocation raising, or the command exiting nonzero (timeout, unreachable,
permission denial) — yields `(host, false)`. -/
theorem C5_thm (env : PingEnv) (host : Nat)
    (hfail : env = PingEnv.raised ∨
      ∃ rc, env = PingEnv.completed rc ∧ rc ≠ 0) :
    ping env host = (host, false) := by
  rcases hfail with h | ⟨rc, h, hrc⟩ <;> subst h
  · rfl
  · simp [ping, hrc]

/-- C5, witness: a probe whose invocation raised reports not-alive. -/
theorem C5_witness : ping PingEnv.raised 3232235777 = (3232235777, false) :=
  C5_thm PingEnv.raised 3232235777 (Or.inl rfl)

/-- C6: an unparseable range specification makes `sweep_network` fail with
the parse error (the source prints it and exits), with no probe submitted
and no outcome recorded. -/
theorem C6_thm (alive : Nat → Bool) (sched : List Nat → List Nat)
    (subnet : String) (e : String)
    (hbad : parseIPv4Network subnet = Except.error e) :
    sweep_network alive sched subnet = Except.error e ∧
    probedHosts sched subnet = [] := by
  simp [sweep_network, probedHosts, hbad]

/-- C6, witness: the spec's scenario input `"not-an-ip"` is rejected before
any probing. -/
theorem C6_witness :
    sweep_network (fun _ => false) id "not-an-ip" =
      Except.error "Expected 4 octets" :=
  (C6_thm (fun _ => false) id "not-an-ip" "Expected 4 octets" rfl).1

/-- C7, counterexample: an interrupt after one completion of a two-host
sweep propagates out of the collection loop; the caller receives no
partial `SweepResult` (and there is no interrupted flag to receive). -/
theorem C7_counterexample :
    runSweep (fun _ => false) [3232235777, 3232235778] (some 1) =
      SweepOutcome.interrupted ∧
    resultsReturned
      (runSweep (fun _ => false) [3232235777, 3232235778] (some 1)) = none :=
  ⟨rfl, rfl⟩

/-- C7 (amended): a sweep cancelled before all completions are consumed
propagates the interrupt and returns nothing — the accumulated partial
results are discarded and no interrupted flag exists; only an undisturbed
run returns results, namely the complete list. -/
theorem C7_amended_thm (alive : Nat → Bool) (arrival : List Nat) (k : Nat)
    (hk : k < arrival.length) :
    runSweep alive arrival (some k) = SweepOutcome.interrupted ∧
    resultsReturned (runSweep alive arrival (some k)) = none ∧
    runSweep alive arrival none =
      SweepOutcome.completed (sweepRun alive arrival) := by
  have h1 := collectLoop_interrupt alive arrival k [] hk
  refine ⟨h1, ?_, ?_⟩
  · rw [runSweep, h1]; rfl
  · rw [runSweep, collectLoop_none]; simp

/-- C7, witness: a one-host sweep interrupted before its first completion
returns nothing. -/
theorem C7_witness :
    runSweep (fun _ => false) [3232235777] (some 0) =
      SweepOutcome.interrupted :=
  (C7_amended_thm (fun _ => false) [3232235777] 0 (by decide)).1

/-- C8: in every state the `ThreadPoolExecutor` pool can reach during a
sweep, at most `MAX_THREADS = 200` probes are running at once. -/
theorem C8_thm (alive : Nat → Bool) (hosts : List Nat) (s : SchedState)
    (hr : Reachable alive MAX_THREADS hosts s) :
    s.running.length ≤ MAX_THREADS := by
  unfold Reachable at hr
  induction hr with
  | refl => simp [initState]
  | tail hab hbc ih =>
    cases hbc with
    | start hlt => simpa using hlt
    | finish =>
      rename_i pending l1 l2 h done
      simp only [List.length_append, List.length_cons] at ih ⊢
      omega

/-- C8, witness: the ceiling holds at the initial state of a concrete
sweep. -/
theorem C8_witness :
    Reachable (fun _ => false) MAX_THREADS [3232235777]
      (initState [3232235777]) ∧
    (initState [3232235777]).running.length ≤ MAX_THREADS :=
  ⟨Relation.ReflTransGen.refl,
   C8_thm (fun _ => false) [3232235777] (initState [3232235777])
     Relation.ReflTransGen.refl⟩

/-- C9: a base address with host bits set below the prefix is accepted:
`"192.168.1.5/24"` parses (to the containing network `192.168.1.0/24`),
every successfully parsed network has its host bits cleared
(`strict=False` masking), and the sweep proceeds over that network's
usable hosts. -/
theorem C9_thm (alive : Nat → Bool) (sched : List Nat → List Nat) :
    parseIPv4Network "192.168.1.5/24" = Except.ok ⟨3232235776, 24⟩ ∧
    (∀ s net, parseIPv4Network s = Except.ok net →
      net.addr % 2 ^ (32 - net.prefixLen) = 0) ∧
    sweep_network alive sched "192.168.1.5/24" =
      Except.ok (sweepRun alive (sched (hostsOf ⟨3232235776, 24⟩))) := by
  refine ⟨rfl, ?_, rfl⟩
  intro s net hok
  rw [parseIPv4Network] at hok
  split at hok
  · rename_i a _
    cases hpa : parseIPv4 a with
    | error e => rw [hpa] at hok; simp [Except.map] at hok
    | ok n =>
      rw [hpa] at hok
      simp only [Except.map, Except.ok.injEq] at hok
      subst hok
      show n % 2 ^ (32 - 32) = 0
      exact Nat.mod_one n
  · rename_i a p _
    cases hpa : parseIPv4 a with
    | error e => rw [hpa] at hok; simp [Except.bind, bind] at hok
    | ok base =>
      cases hpp : parsePrefix p with
      | error e => rw [hpa, hpp] at hok; simp [Except.bind, bind] at hok
      | ok pr =>
        rw [hpa, hpp] at hok
        simp only [bind, Except.bind, pure, Except.pure, Except.ok.injEq]
          at hok
        subst hok
        simp [maskNet, Nat.mul_mod_left]
  · simp at hok

/-- C9, witness: the concrete masked network is normalized (host bits of
`192.168.1.5/24` cleared to `192.168.1.0`). -/
theorem C9_witness :
    parseIPv4Network "192.168.1.5/24" = Except.ok ⟨3232235776, 24⟩ ∧
    (3232235776 : Nat) % 2 ^ (32 - (24 : Nat)) = 0 :=
  ⟨(C9_thm (fun _ => false) id).1,
   (C9_thm (fun _ => false) id).2.1 "192.168.1.5/24" ⟨3232235776, 24⟩
     (C9_thm (fun _ => false) id).1⟩

/-- C10: on every non-Windows platform the `-W` timeout argument is
`str(PING_TIMEOUT_MS // 1000) = "0"` — integer division truncates 800 ms
to 0 seconds. -/
theorem C10_thm (os : String) (host : String) (hos : os ≠ "windows") :
    PING_TIMEOUT_MS / 1000 = 0 ∧
    build_ping_cmd os host = ["ping", "-c", "1", "-W", "0", host] := by
  refine ⟨rfl, ?_⟩
  unfold build_ping_cmd
  rw [if_neg hos]
  rfl

/-- C10, witness: the concrete command line built on Linux. -/
theorem C10_witness :
    build_ping_cmd "linux" "10.0.0.5" =
      ["ping", "-c", "1", "-W", "0", "10.0.0.5"] :=
  (C10_thm "linux" "10.0.0.5" (by decide)).2

end PortScanner
